import Mathlib

/-!
Verification development for the `tdw-resolver` crate (did:tdw resolution).

The definitions below are a shallow embedding of the Rust sources:
  * `src/did.rs`       — `TdwDid`, `TdwDid::parse`, `TdwDid::to_string`
  * `src/types.rs`     — the data model (`DIDDocument`, `DIDLogEntry`, ...)
  * `src/error.rs`     — `ResolutionError`
  * `src/resolver.rs`  — `Resolver` state and the per-entry pipeline
  * `src/verification/{entry,scid,proof,mod}.rs` — the verification helpers

External collaborators (HTTP transport, JSON deserialization, JCS
canonicalization, SHA-256, multihash framing, base58) are abstracted:
the composite `base58 ∘ multihash ∘ sha256 ∘ jcs` hash is a parameter
`H : HashInput → String` over the fields that are actually serialized
(`last_version_id` carries `#[serde(skip)]` in the source, so it is not
part of the hash preimage), and the raw-key hash of
`verification/mod.rs::generate_key_hash` is a parameter `KH : String → String`.
The wall clock (`Utc::now()`) is a parameter `now`.  Machine integers
(`u16`, `u64`) are modelled as `Nat` with the source's range checks made
explicit where the source performs them (`str::parse` overflow).
-/

/-! ## List-of-characters utilities

Rust's `str::split(c)`, `str::splitn(2, c)` and `Vec::join` are modelled
over `List Char`.  `splitChar` mirrors `split`: splitting the empty string
yields one empty component, and separators at the ends produce empty
components.  `breakOn` mirrors `splitn(2, c)`: everything before the first
occurrence, and optionally everything after it.  `joinSep` mirrors
`[&str]::join(&c.to_string())`.
-/

def splitChar (c : Char) : List Char → List (List Char)
  | [] => [[]]
  | x :: xs =>
    match splitChar c xs with
    | [] => [[]]
    | h :: t => if x = c then [] :: h :: t else (x :: h) :: t

def joinSep (c : Char) : List (List Char) → List Char
  | [] => []
  | [a] => a
  | a :: b :: t => a ++ c :: joinSep c (b :: t)

def breakOn (c : Char) : List Char → List Char × Option (List Char)
  | [] => ([], none)
  | x :: xs =>
    if x = c then ([], some xs)
    else
      let r := breakOn c xs
      (x :: r.1, r.2)

theorem splitChar_ne_nil (c : Char) (l : List Char) : splitChar c l ≠ [] := by
  cases l with
  | nil => simp [splitChar]
  | cons x xs =>
    simp only [splitChar]
    cases h : splitChar c xs with
    | nil => simp
    | cons h t =>
      by_cases hx : x = c <;> simp [hx]

theorem joinSep_splitChar (c : Char) (l : List Char) :
    joinSep c (splitChar c l) = l := by
  induction l with
  | nil => rfl
  | cons x xs ih =>
    simp only [splitChar]
    cases h : splitChar c xs with
    | nil => exact absurd h (splitChar_ne_nil c xs)
    | cons h0 t =>
      rw [h] at ih
      by_cases hx : x = c
      · subst hx
        simp only [if_pos rfl, joinSep]
        exact congrArg (x :: ·) ih
      · simp only [if_neg hx]
        cases t with
        | nil => simpa [joinSep] using congrArg (x :: ·) ih
        | cons t0 t1 => simpa [joinSep] using congrArg (x :: ·) ih

theorem splitChar_of_not_mem {c : Char} {l : List Char} (h : c ∉ l) :
    splitChar c l = [l] := by
  induction l with
  | nil => rfl
  | cons x xs ih =>
    have hx : x ≠ c := fun e => h (e ▸ List.mem_cons_self x xs)
    have hxs : c ∉ xs := fun e => h (List.mem_cons_of_mem x e)
    simp only [splitChar, ih hxs, if_neg hx]

theorem splitChar_append_sep {c : Char} {a : List Char} (ha : c ∉ a)
    (r : List Char) : splitChar c (a ++ c :: r) = a :: splitChar c r := by
  induction a with
  | nil =>
    simp only [List.nil_append, splitChar]
    cases h : splitChar c r with
    | nil => exact absurd h (splitChar_ne_nil c r)
    | cons h0 t => simp
  | cons y ys ih =>
    have hy : y ≠ c := fun e => ha (e ▸ List.mem_cons_self y ys)
    have hys : c ∉ ys := fun e => ha (List.mem_cons_of_mem y e)
    show splitChar c (y :: (ys ++ c :: r)) = (y :: ys) :: splitChar c r
    rw [splitChar, ih hys]
    simp [hy]

theorem splitChar_joinSep (c : Char) (L : List (List Char))
    (hL : ∀ a ∈ L, c ∉ a) (hne : L ≠ []) :
    splitChar c (joinSep c L) = L := by
  induction L with
  | nil => exact absurd rfl hne
  | cons a L ih =>
    cases L with
    | nil =>
      simp only [joinSep]
      exact splitChar_of_not_mem (hL a (List.mem_cons_self a []))
    | cons b t =>
      have ha : c ∉ a := hL a (List.mem_cons_self a _)
      have hrest : ∀ x ∈ b :: t, c ∉ x := fun x hx =>
        hL x (List.mem_cons_of_mem a hx)
      simp only [joinSep]
      rw [splitChar_append_sep ha, ih hrest (by simp)]

theorem breakOn_eq (c : Char) (l : List Char) :
    c ∉ (breakOn c l).1 ∧
      l = (breakOn c l).1 ++
        (match (breakOn c l).2 with
         | none => []
         | some b => c :: b) := by
  induction l with
  | nil => simp [breakOn]
  | cons x xs ih =>
    by_cases hx : x = c
    · subst hx; simp [breakOn]
    · simp only [breakOn, if_neg hx]
      refine ⟨?_, ?_⟩
      · intro hmem
        rcases List.mem_cons.mp hmem with h | h
        · exact hx h.symm
        · exact ih.1 h
      · simpa using congrArg (x :: ·) ih.2

theorem breakOn_of_not_mem {c : Char} {l : List Char} (h : c ∉ l) :
    breakOn c l = (l, none) := by
  induction l with
  | nil => rfl
  | cons x xs ih =>
    have hx : x ≠ c := fun e => h (e ▸ List.mem_cons_self x xs)
    have hxs : c ∉ xs := fun e => h (List.mem_cons_of_mem x e)
    simp [breakOn, hx, ih hxs]

theorem splitChar_two_of_mem {c : Char} {l : List Char} (h : c ∈ l) :
    ∃ a b t, splitChar c l = a :: b :: t := by
  induction l with
  | nil => cases h
  | cons x xs ih =>
    by_cases hx : x = c
    · subst hx
      obtain ⟨h0, t, ht⟩ : ∃ h0 t, splitChar x xs = h0 :: t := by
        cases hs : splitChar x xs with
        | nil => exact absurd hs (splitChar_ne_nil x xs)
        | cons h0 t => exact ⟨h0, t, rfl⟩
      exact ⟨[], h0, t, by simp [splitChar, ht]⟩
    · have hxs : c ∈ xs := by
        rcases List.mem_cons.mp h with h | h
        · exact absurd h.symm hx
        · exact h
      obtain ⟨a, b, t, ht⟩ := ih hxs
      exact ⟨x :: a, b, t, by simp [splitChar, ht, hx]⟩

/-! ## Unsigned decimal parsing

`str::parse::<u64>` / `str::parse::<u16>`: an optional leading `'+'`,
then one or more ASCII digits, rejecting on overflow.  (A leading `'-'`
is rejected for unsigned targets.)
-/

def digitsVal (l : List Char) : Option Nat :=
  if l = [] then none
  else
    l.foldl
      (fun acc ch =>
        match acc with
        | none => none
        | some v => if ch.isDigit then some (v * 10 + (ch.toNat - 48)) else none)
      (some 0)

def parseUnsigned (bound : Nat) (l : List Char) : Option Nat :=
  let l' := match l with
            | '+' :: rest => rest
            | _ => l
  match digitsVal l' with
  | none => none
  | some v => if v < bound then some v else none

def parseU64 : List Char → Option Nat := parseUnsigned (2 ^ 64)

def parseU16 : List Char → Option Nat := parseUnsigned (2 ^ 16)

/-! ## `src/did.rs` — the identifier parser and its serializer -/

/-- Errors of `src/error.rs` (`ResolutionError`), restricted to the payload
shapes the modelled code produces.  `resolver.rs` additionally uses the
pre-rotation / portability variants listed in the spec's closed error set. -/
inductive ResolutionError where
  | InvalidDIDFormat
  | ResolutionFailed (msg : String)
  | InvalidLogEntry
  | InvalidProof
  | InvalidVersionId
  | InvalidVersionNumber
  | InvalidEntryHash
  | InvalidVersionTime
  | FutureVersionTime
  | InvalidSCID
  | VersionNotFound
  | NoDocumentFound
  | CannotDeactivatePreRotation
  | CannotEnablePortabilityAfterCreation
  | KeyNotPreRotated
  | MissingNextKeyHashes
  | RequestError (msg : String)
  | UrlError (msg : String)
  | JsonError (msg : String)
  | Base58DecodeError (msg : String)
  | CanonicalizeError (msg : String)
  | MultihashError (msg : String)
  | InvalidDIDLog (msg : String)
  deriving DecidableEq, Repr

/-- `src/did.rs::TdwDid`. -/
structure TdwDid where
  scid : String
  domain : String
  port : Option Nat
  path : Option String
  deriving DecidableEq, Repr

/-- `src/did.rs::TdwDid::to_string`. -/
def TdwDid.to_string (d : TdwDid) : String :=
  let base := "did:tdw:" ++ d.scid ++ ":" ++ d.domain
  let base := match d.port with
              | some p => base ++ ":" ++ Nat.repr p
              | none => base
  match d.path with
  | some q => base ++ "/" ++ q
  | none => base

/-- `src/did.rs::TdwDid::parse`.

The source splits the input on `':'`; rejects unless there are at least
four components starting `"did"`, `"tdw"`; rejoins everything from the
fourth component with `':'`; splits that once on `'/'` into
host-and-port / path; and, when the host-and-port part contains `':'`,
takes the first `':'`-component as the host and parses the second as a
`u16` port (components after the second are dropped).  Every failure is
`InvalidDIDFormat`.  The source's local bindings `domain_and_rest`
(= `joinSep ':' (r0 :: rrest)`), `domain_and_port` (= the first breakOn
component) and `path` (= the second) are inlined here.  The branch where
the host-and-port part contains `':'` but splits into fewer than two
components is unreachable. -/
def TdwDid.parse (s : String) : Except ResolutionError TdwDid :=
  match splitChar ':' s.data with
  | p0 :: p1 :: p2 :: r0 :: rrest =>
    if p0 = "did".data ∧ p1 = "tdw".data then
      if ':' ∈ (breakOn '/' (joinSep ':' (r0 :: rrest))).1 then
        match splitChar ':' (breakOn '/' (joinSep ':' (r0 :: rrest))).1 with
        | d0 :: d1 :: _ =>
          match parseU16 d1 with
          | some port =>
            .ok ⟨⟨p2⟩, ⟨d0⟩, some port,
                 ((breakOn '/' (joinSep ':' (r0 :: rrest))).2).map (⟨·⟩)⟩
          | none => .error .InvalidDIDFormat
        | _ => .error .InvalidDIDFormat
      else
        .ok ⟨⟨p2⟩, ⟨(breakOn '/' (joinSep ':' (r0 :: rrest))).1⟩, none,
             ((breakOn '/' (joinSep ':' (r0 :: rrest))).2).map (⟨·⟩)⟩
    else .error .InvalidDIDFormat
  | _ => .error .InvalidDIDFormat

example : TdwDid.parse "did:tdw:abc123:example.com" =
    .ok ⟨"abc123", "example.com", none, none⟩ := rfl
example : TdwDid.parse "did:tdw:abc123:example.com:8080/path/to/resource" =
    .ok ⟨"abc123", "example.com", some 8080, some "path/to/resource"⟩ := rfl
example : TdwDid.parse "did:tdw:abc123" = .error .InvalidDIDFormat := rfl
example : TdwDid.parse "did:web:example.com" = .error .InvalidDIDFormat := rfl
example : TdwDid.to_string ⟨"abc123", "example.com", some 8080, none⟩ =
    "did:tdw:abc123:example.com:8080" := by decide

/-! ## `src/types.rs` — the data model

`types.rs` as committed omits the `prerotation`, `next_key_hashes` and
`portable` fields from `DIDParameters`, yet `resolver.rs` (and the tests in
`verification/proof.rs` / `verification/scid.rs`) read and write them; the
embedding uses the full field set the resolver operates on.  Timestamps
(`DateTime<Utc>`, serialized as unix seconds) are modelled as `Int`;
`serde_json::Value` as a small `Json` inductive. -/

inductive Json where
  | null
  | bool (b : Bool)
  | num (n : Int)
  | str (s : String)
  | arr (elems : List Json)
  | obj (fields : List (String × Json))

structure VerificationMethod where
  id : String
  method_type : String
  controller : String
  public_key_multibase : String

structure Service where
  id : String
  service_type : String
  service_endpoint : Json

structure DIDDocument where
  context : List String
  id : String
  also_known_as : Option (List String)
  verification_method : Option (List VerificationMethod)
  authentication : Option (List String)
  assertion_method : Option (List String)
  service : Option (List Service)
  deactivated : Option Bool

structure DIDParameters where
  method : String
  scid : Option String
  prerotation : Option Bool
  next_key_hashes : Option (List String)
  portable : Option Bool
  update_keys : Option (List String)
  deactivated : Option Bool
  ttl : Option Nat

inductive ProofPurpose where
  | authentication
  | assertionMethod

structure Proof where
  proof_type : String
  created : Int
  verification_method : String
  proof_purpose : ProofPurpose
  proof_value : String
  challenge : Option String

/-- `src/types.rs::DIDLogEntry`.  `last_version_id` is `#[serde(skip)]` in
the source: it is neither serialized nor deserialized (deserialization
fills it with `String::default()`, the empty string). -/
structure DIDLogEntry where
  version_id : String
  version_time : Int
  parameters : DIDParameters
  state : DIDDocument
  proof : List Proof
  last_version_id : String

/-! ## `src/verification/` — hashing (abstracted) and the verifiers -/

/-- The JCS preimage of an entry: exactly the serialized fields of
`DIDLogEntry` (`last_version_id` is skipped by serde and therefore absent). -/
structure HashInput where
  version_id : String
  version_time : Int
  parameters : DIDParameters
  state : DIDDocument
  proof : List Proof

def hashInputOf (e : DIDLogEntry) : HashInput :=
  ⟨e.version_id, e.version_time, e.parameters, e.state, e.proof⟩

/-- `verification/mod.rs::generate_key_hash`: base58 multihash of the raw
key string, abstracted as the parameter `KH`. -/
def generate_key_hash (KH : String → String) (key : String) : String :=
  KH key

/-- `verification/entry.rs::calculate_entry_hash`: the entry is copied with
`proof = []`, JCS-canonicalized and hashed; the composite hash is the
parameter `H`. -/
def calculate_entry_hash (H : HashInput → String) (e : DIDLogEntry) : String :=
  H (hashInputOf { e with proof := [] })

/-- `verification/entry.rs::verify_entry_hash`. -/
def verify_entry_hash (H : HashInput → String) (e : DIDLogEntry) :
    Except ResolutionError Unit :=
  match splitChar '-' e.version_id.data with
  | [p0, p1] =>
    match parseU64 p0 with
    | none => .error .InvalidVersionId
    | some n =>
      match (if n = 1 then e.parameters.scid else some e.last_version_id) with
      | none => .error .InvalidVersionId
      | some pred =>
        if String.mk p1 ≠ calculate_entry_hash H { e with version_id := pred } then
          .error .InvalidEntryHash
        else .ok ()
  | _ => .error .InvalidVersionId

/-- `verification/scid.rs::generate_scid`: copy of the entry with
`version_id` and (when present) `parameters.scid` replaced by the literal
placeholder `"{SCID}"`, canonicalized and hashed.  Note the source does
*not* strip proofs here. -/
def generate_scid (H : HashInput → String) (e : DIDLogEntry) : String :=
  H (hashInputOf
      { e with
        version_id := "{SCID}",
        parameters := { e.parameters with
                        scid := e.parameters.scid.map (fun _ => "{SCID}") } })

/-- `verification/scid.rs::verify_scid`. -/
def verify_scid (H : HashInput → String) (scid : String) (e : DIDLogEntry) :
    Except ResolutionError Unit :=
  if scid ≠ generate_scid H e then .error .InvalidSCID else .ok ()

/-- `verification/proof.rs::verify_proof` (structural checks only; the
`parameters` argument is unused in the source too). -/
def verify_proof (e : DIDLogEntry) (_params : DIDParameters) :
    Except ResolutionError Unit :=
  match e.proof with
  | [] => .error .InvalidProof
  | pf :: _ =>
    if pf.verification_method = "" ∨ pf.proof_value = "" then
      .error .InvalidProof
    else .ok ()

/-! ## `src/resolver.rs` — resolver state and the per-entry pipeline -/

structure ResolverState where
  active_parameters : DIDParameters
  processed_documents : List (String × Int × DIDDocument)
  current_version : Nat
  pre_rotation_active : Bool
  next_key_hashes : List String

/-- `Resolver::new`. -/
def initState : ResolverState :=
  { active_parameters :=
      { method := "did:tdw:0.4", scid := none, prerotation := none,
        next_key_hashes := none, portable := none, update_keys := none,
        deactivated := none, ttl := none },
    processed_documents := [],
    current_version := 0,
    pre_rotation_active := false,
    next_key_hashes := [] }

/-- The successful outcome of `Resolver::update_parameters`: `method` is
always replaced; every `Option` field replaces the active value when
declared and is inherited otherwise; `pre_rotation_active` mirrors a
declared `prerotation`; the `next_key_hashes` set is replaced by a declared
`nextKeyHashes`. -/
def apply_parameters (st : ResolverState) (p : DIDParameters) : ResolverState :=
  { st with
    active_parameters :=
      { method := p.method,
        scid := match p.scid with
                | some sc => some sc
                | none => st.active_parameters.scid,
        prerotation := match p.prerotation with
                       | some pr => some pr
                       | none => st.active_parameters.prerotation,
        next_key_hashes := match p.next_key_hashes with
                           | some nk => some nk
                           | none => st.active_parameters.next_key_hashes,
        portable := match p.portable with
                    | some b => some b
                    | none => st.active_parameters.portable,
        update_keys := match p.update_keys with
                       | some ks => some ks
                       | none => st.active_parameters.update_keys,
        deactivated := match p.deactivated with
                       | some d => some d
                       | none => st.active_parameters.deactivated,
        ttl := match p.ttl with
               | some t => some t
               | none => st.active_parameters.ttl },
    pre_rotation_active := match p.prerotation with
                           | some pr => pr
                           | none => st.pre_rotation_active,
    next_key_hashes := match p.next_key_hashes with
                       | some nk => nk
                       | none => st.next_key_hashes }

/-- `Resolver::update_parameters`.  The source mutates
`self.active_parameters` field by field, erroring out at two points:
`CannotDeactivatePreRotation` when a declared `prerotation = false` meets
an active pre-rotation (checked before the portable rule), and
`CannotEnablePortabilityAfterCreation` when `portable` is declared after
the first entry while `active_parameters.portable` is still unset at the
moment of the check (none of the earlier assignments of this call touch
`portable`, so that is the previously active value).  Since every error
aborts the whole resolve, the fields mutated before an early return are
unobservable, and the embedding expresses the call as its two guards
followed by the complete merge `apply_parameters`. -/
def update_parameters (st : ResolverState) (p : DIDParameters) :
    Except ResolutionError ResolverState :=
  if st.pre_rotation_active ∧ p.prerotation = some false then
    .error .CannotDeactivatePreRotation
  else if p.portable.isSome ∧ st.current_version > 0 ∧
      st.active_parameters.portable = none then
    .error .CannotEnablePortabilityAfterCreation
  else
    .ok (apply_parameters st p)

/-- `Resolver::verify_version_sequence`. -/
def verify_version_sequence (st : ResolverState) (e : DIDLogEntry) :
    Except ResolutionError Unit :=
  match splitChar '-' e.version_id.data with
  | [p0, _p1] =>
    match parseU64 p0 with
    | none => .error .InvalidVersionId
    | some n =>
      if n ≠ st.current_version + 1 then .error .InvalidVersionNumber
      else .ok ()
  | _ => .error .InvalidVersionId

/-- `Resolver::verify_version_time` (`now` models `Utc::now()`). -/
def verify_version_time (now : Int) (st : ResolverState) (e : DIDLogEntry) :
    Except ResolutionError Unit :=
  match st.processed_documents.getLast? with
  | some last =>
    if e.version_time ≤ last.2.1 then .error .InvalidVersionTime
    else if now < e.version_time then .error .FutureVersionTime
    else .ok ()
  | none =>
    if now < e.version_time then .error .FutureVersionTime
    else .ok ()

/-- `Resolver::verify_pre_rotation`.  Note: by the time this runs,
`update_parameters` has already replaced `st.next_key_hashes` with the
*current* entry's declared `nextKeyHashes` (when declared). -/
def verify_pre_rotation (KH : String → String) (st : ResolverState)
    (e : DIDLogEntry) : Except ResolutionError Unit :=
  match e.parameters.update_keys with
  | none => .ok ()
  | some keys =>
    if st.current_version > 0 ∧
        ¬ (keys.all (fun k => st.next_key_hashes.contains (generate_key_hash KH k))) then
      .error .KeyNotPreRotated
    else if e.parameters.next_key_hashes.isNone then
      .error .MissingNextKeyHashes
    else .ok ()

/-- Genesis SCID check inside `Resolver::process_log_entry`:
`self.active_parameters.scid.as_ref().ok_or(InvalidSCID)?` then
`verify_scid`. -/
def genesis_scid_check (H : HashInput → String) (st : ResolverState)
    (e : DIDLogEntry) : Except ResolutionError Unit :=
  if st.current_version = 0 then
    match st.active_parameters.scid with
    | none => .error .InvalidSCID
    | some sc => verify_scid H sc e
  else .ok ()

def pre_rotation_check (KH : String → String) (st : ResolverState)
    (e : DIDLogEntry) : Except ResolutionError Unit :=
  if st.pre_rotation_active then verify_pre_rotation KH st e else .ok ()

/-- `Resolver::process_log_entry`: the per-entry pipeline, in source order. -/
def process_log_entry (H : HashInput → String) (KH : String → String)
    (now : Int) (st : ResolverState) (e : DIDLogEntry) :
    Except ResolutionError ResolverState :=
  match update_parameters st e.parameters with
  | .error er => .error er
  | .ok st1 =>
    match verify_version_sequence st1 e with
    | .error er => .error er
    | .ok _ =>
      match verify_entry_hash H e with
      | .error er => .error er
      | .ok _ =>
        match verify_version_time now st1 e with
        | .error er => .error er
        | .ok _ =>
          match genesis_scid_check H st1 e with
          | .error er => .error er
          | .ok _ =>
            match pre_rotation_check KH st1 e with
            | .error er => .error er
            | .ok _ =>
              match verify_proof e st1.active_parameters with
              | .error er => .error er
              | .ok _ =>
                .ok { st1 with
                      processed_documents :=
                        st1.processed_documents ++
                          [(e.version_id, e.version_time, e.state)],
                      current_version := st1.current_version + 1 }

/-- The entry loop of `Resolver::resolve` (`for entry in did_log.entries`). -/
def processLog (H : HashInput → String) (KH : String → String) (now : Int)
    (st : ResolverState) : List DIDLogEntry → Except ResolutionError ResolverState
  | [] => .ok st
  | e :: rest =>
    match process_log_entry H KH now st e with
    | .error er => .error er
    | .ok st' => processLog H KH now st' rest

/-! ## `src/resolver.rs` — version selection and the resolve entry point -/

structure ResolutionOptions where
  version_id : Option String
  version_time : Option Int

/-- `Resolver::get_document_by_version`. -/
def get_document_by_version (docs : List (String × Int × DIDDocument))
    (vid : String) : Except ResolutionError DIDDocument :=
  match docs.find? (fun x => x.1 == vid) with
  | some x => .ok x.2.2
  | none => .error .VersionNotFound

/-- `Resolver::get_document_by_time`. -/
def get_document_by_time (docs : List (String × Int × DIDDocument))
    (t : Int) : Except ResolutionError DIDDocument :=
  match docs.reverse.find? (fun x => decide (x.2.1 ≤ t)) with
  | some x => .ok x.2.2
  | none => .error .VersionNotFound

/-- `Resolver::get_latest_document`. -/
def get_latest_document (docs : List (String × Int × DIDDocument)) :
    Except ResolutionError DIDDocument :=
  match docs.getLast? with
  | some x => .ok x.2.2
  | none => .error .NoDocumentFound

/-- The option dispatch inside `Resolver::resolve`. -/
def select_document (st : ResolverState) (opts : Option ResolutionOptions) :
    Except ResolutionError DIDDocument :=
  match opts with
  | some o =>
    match o.version_id with
    | some vid => get_document_by_version st.processed_documents vid
    | none =>
      match o.version_time with
      | some t => get_document_by_time st.processed_documents t
      | none => get_latest_document st.processed_documents
  | none => get_latest_document st.processed_documents

/-- `Resolver::resolve`, with fetching abstracted: the DID string is parsed
exactly as in the source (its only further use there is deriving the fetch
URL), and `log` stands for the entries deserialized from the fetched
`did.jsonl`.  Returns the post-call resolver state together with the
selected document (the source mutates `self` and returns the document plus
metadata). -/
def resolve (H : HashInput → String) (KH : String → String) (now : Int)
    (st : ResolverState) (did : String) (log : List DIDLogEntry)
    (opts : Option ResolutionOptions) :
    Except ResolutionError (ResolverState × DIDDocument) :=
  match TdwDid.parse did with
  | .error er => .error er
  | .ok _tdw =>
    match processLog H KH now st log with
    | .error er => .error er
    | .ok st' =>
      match select_document st' opts with
      | .error er => .error er
      | .ok doc => .ok (st', doc)

/-- `resolve_did` (the convenience function): a fresh `Resolver`. -/
def resolve_did (H : HashInput → String) (KH : String → String) (now : Int)
    (did : String) (log : List DIDLogEntry)
    (opts : Option ResolutionOptions) :
    Except ResolutionError DIDDocument :=
  match resolve H KH now initState did log opts with
  | .error er => .error er
  | .ok (_, doc) => .ok doc

/-! ## Concrete fixtures

A concrete instantiation `Hc` / `KHc` of the abstract hash parameters, plus
small concrete logs used in counterexamples and failing-input evaluations.
`Hc` discriminates on the `version_id` component of the preimage, which is
exactly the component the verified checks substitute; any collision-free
hash behaves the same way on these inputs, since the preimages differ. -/

def doc1 : DIDDocument :=
  { context := ["https://www.w3.org/ns/did/v1"],
    id := "did:tdw:s1:example.com",
    also_known_as := none, verification_method := none,
    authentication := none, assertion_method := none,
    service := none, deactivated := none }

def doc2 : DIDDocument := { doc1 with deactivated := some false }

def doc3 : DIDDocument := { doc1 with deactivated := some true }

def pf1 : Proof :=
  { proof_type := "DataIntegrityProof", created := 1,
    verification_method := "did:key:z6Mk#key-1",
    proof_purpose := .authentication, proof_value := "zProofValue",
    challenge := none }

def Hc : HashInput → String := fun hi =>
  if hi.version_id = "s1" then "h1"
  else if hi.version_id = "{SCID}" then "s1"
  else if hi.version_id = "1-h1" then "h2"
  else "zz"

def KHc : String → String := fun k => "#" ++ k

def baseParams : DIDParameters :=
  { method := "did:tdw:0.4", scid := some "s1", prerotation := none,
    next_key_hashes := none, portable := none, update_keys := none,
    deactivated := none, ttl := none }

/-- A self-certifying genesis entry under `Hc` (versionId `1-h1`,
scid `s1`).  Its `last_version_id` is `""`, the value serde's
`#[serde(skip)]` produces on deserialization; genesis hashing uses the
scid instead, so the entry verifies. -/
def e1 : DIDLogEntry :=
  { version_id := "1-h1", version_time := 1, parameters := baseParams,
    state := doc1, proof := [pf1], last_version_id := "" }

/-- Second entry chained exactly as the spec prescribes: its hash suffix
`h2` is the hash of the entry with `versionId` replaced by entry 1's full
versionId `"1-h1"`; its `last_version_id` is `""` as deserialization
produces. -/
def e2chain : DIDLogEntry :=
  { version_id := "2-h2", version_time := 2, parameters := baseParams,
    state := doc2, proof := [pf1], last_version_id := "" }

/-- Second entry whose `last_version_id` field carries entry 1's versionId
(as the field's doc comment in `types.rs` describes) and which declares a
*different* scid `s2`. -/
def e2scid : DIDLogEntry :=
  { version_id := "2-h2", version_time := 2,
    parameters := { baseParams with scid := some "s2" },
    state := doc2, proof := [pf1], last_version_id := "1-h1" }

/-- Genesis entry enabling pre-rotation and committing `["otherhash"]` as
the next key hashes. -/
def e1pr : DIDLogEntry :=
  { e1 with
    parameters := { baseParams with
                    prerotation := some true,
                    next_key_hashes := some ["otherhash"] } }

/-- Second entry declaring the update key `"K"` together with fresh
`nextKeyHashes` containing that key's own hash — which was *not*
committed by the previous entry. -/
def e2keys : DIDLogEntry :=
  { version_id := "2-h2", version_time := 2,
    parameters := { method := "did:tdw:0.4", scid := none,
                    prerotation := none,
                    next_key_hashes := some [KHc "K"],
                    portable := none, update_keys := some ["K"],
                    deactivated := none, ttl := none },
    state := doc2, proof := [pf1], last_version_id := "1-h1" }

/-- Genesis entry declaring prerotation `false` (used as the first entry of
a *second* log fed to an already-used resolver). -/
def e1x : DIDLogEntry :=
  { e1 with parameters := { baseParams with prerotation := some false } }

/-- Genesis entry setting `portable = false`. -/
def e1po : DIDLogEntry :=
  { e1 with parameters := { baseParams with portable := some false } }

/-- Second entry switching `portable` to `true`. -/
def e2po : DIDLogEntry :=
  { version_id := "2-h2", version_time := 2,
    parameters := { baseParams with portable := some true },
    state := doc2, proof := [pf1], last_version_id := "1-h1" }

/-- The integer prefix of a versionId, following the split-and-parse done
by `verify_version_sequence` / `verify_entry_hash`: `none` when the id
does not split into exactly two `'-'`-separated parts or the first part
does not parse as a `u64`. -/
def versionNumOf (vid : String) : Option Nat :=
  match splitChar '-' vid.data with
  | [p0, _p1] => parseU64 p0
  | _ => none

example : (processLog Hc KHc 10 initState [e1]).isOk = true := rfl
example : versionNumOf "1-h1" = some 1 := rfl

/-- Resolver state after resolving the pre-rotation genesis log. -/
def stPr : ResolverState :=
  match resolve Hc KHc 10 initState "did:tdw:s1:example.com" [e1pr] none with
  | .ok (st, _) => st
  | .error _ => initState

/-- The host-and-port segment of an identifier: what `TdwDid::parse` splits
for host/port, i.e. the part of the rejoined post-scid remainder before the
first `'/'`. -/
def hostPortSegment (s : String) : List Char :=
  match splitChar ':' s.data with
  | _p0 :: _p1 :: _p2 :: r0 :: rrest => (breakOn '/' (joinSep ':' (r0 :: rrest))).1
  | _ => []

/-- Claim C1 (code_bug evaluation): a two-entry log chained exactly as the
claim describes — entry 2's hash suffix `"h2"` is the hash of entry 2 with
proofs removed and `versionId` replaced by entry 1's full versionId
`"1-h1"` — is nevertheless rejected with `InvalidEntryHash`, because
`verify_entry_hash` substitutes the `last_version_id` field, which the
resolver never populates (deserialization leaves it `""` due to
`#[serde(skip)]`), so the hash is recomputed over the wrong preimage. -/
theorem c1_hash_chain_code_divergence :
    processLog Hc KHc 10 initState [e1, e2chain] = .error .InvalidEntryHash
    ∧ Hc (hashInputOf { e2chain with version_id := e1.version_id, proof := [] }) = "h2"
    ∧ e2chain.version_id = "2-h2"
    ∧ e2chain.last_version_id = "" :=
  ⟨rfl, rfl, rfl, rfl⟩

/-- Claim C2 (counterexample): a resolve of the identifier
`did:tdw:WRONGSCID:example.com` over a genesis log whose self-certifying
scid is `"s1"` succeeds — the scid component of the parsed identifier is
never compared with the recomputed SCID, contradicting the claim that
acceptance requires equality with the identifier's scid. -/
theorem c2_identifier_scid_not_checked_cex :
    resolve_did Hc KHc 10 "did:tdw:WRONGSCID:example.com" [e1] none = .ok doc1
    ∧ TdwDid.parse "did:tdw:WRONGSCID:example.com" =
        .ok ⟨"WRONGSCID", "example.com", none, none⟩
    ∧ e1.parameters.scid = some "s1"
    ∧ generate_scid Hc e1 = "s1"
    ∧ ("WRONGSCID" : String) ≠ "s1" :=
  ⟨rfl, rfl, rfl, rfl, by decide⟩

/-- Claim C3 (code_bug evaluation): with pre-rotation active, entry 2
declares the update key `"K"` whose hash `KHc "K"` is *not* in entry 1's
committed `nextKeyHashes` (`["otherhash"]`), yet the whole log is
accepted: `update_parameters` has already replaced the resolver's
`next_key_hashes` with entry 2's own declaration before
`verify_pre_rotation` runs, so the claimed `KeyNotPreRotated` failure
never happens. -/
theorem c3_pre_rotation_checks_current_entry :
    (processLog Hc KHc 10 initState [e1pr, e2keys]).isOk = true
    ∧ (processLog Hc KHc 10 initState [e1pr]).map
        (fun st => st.pre_rotation_active) = .ok true
    ∧ e1pr.parameters.next_key_hashes = some ["otherhash"]
    ∧ e2keys.parameters.update_keys = some ["K"]
    ∧ generate_key_hash KHc "K" ∉ ["otherhash"] :=
  ⟨rfl, rfl, rfl, rfl, by decide⟩

/-- Claim C4 (counterexample): the genesis entry establishes scid `"s1"`;
the second entry declares scid `"s2"` and the log is accepted with the
active scid silently replaced by `"s2"` — no `InvalidSCID` is raised and
the final active scid differs from the genesis scid. -/
theorem c4_scid_change_accepted_cex :
    (processLog Hc KHc 10 initState [e1]).map
        (fun st => st.active_parameters.scid) = .ok (some "s1")
    ∧ (processLog Hc KHc 10 initState [e1, e2scid]).map
        (fun st => st.active_parameters.scid) = .ok (some "s2")
    ∧ e2scid.parameters.scid = some "s2"
    ∧ ("s2" : String) ≠ "s1" :=
  ⟨rfl, rfl, rfl, by decide⟩

/-- Claim C6 (code_bug evaluation): genesis sets `portable = false`; entry 2
declares `portable = true`; the reducer accepts (the error fires only when
no prior value was set) and the active `portable` becomes `true`,
contradicting both the claim and the source's own comment
`// Can only set portable in first entry`. -/
theorem c6_portable_change_after_genesis_accepted :
    (processLog Hc KHc 10 initState [e1po, e2po]).map
        (fun st => st.active_parameters.portable) = .ok (some true)
    ∧ e1po.parameters.portable = some false
    ∧ e2po.parameters.portable = some true :=
  ⟨rfl, rfl, rfl⟩

/-- Claim C8 (counterexample): the input
`did:tdw:abc123:example.com:8080:9090` is accepted by `TdwDid::parse`
(the third host component `9090` is silently dropped), but serializing the
parsed identifier yields `did:tdw:abc123:example.com:8080`, not the input. -/
theorem c8_round_trip_cex :
    TdwDid.parse "did:tdw:abc123:example.com:8080:9090" =
        .ok ⟨"abc123", "example.com", some 8080, none⟩
    ∧ TdwDid.to_string ⟨"abc123", "example.com", some 8080, none⟩ =
        "did:tdw:abc123:example.com:8080"
    ∧ ("did:tdw:abc123:example.com:8080" : String) ≠
        "did:tdw:abc123:example.com:8080:9090" :=
  ⟨rfl, rfl, by decide⟩

/-- Claim C9 (counterexample): after a successful resolve that activated
pre-rotation, a second resolve on the same instance whose first entry has
version prefix 1 fails — but with `CannotDeactivatePreRotation` (raised by
`update_parameters` before the version check runs), not with the claimed
`InvalidVersionNumber`. -/
theorem c9_second_resolve_error_cex :
    (resolve Hc KHc 10 initState "did:tdw:s1:example.com" [e1pr] none).isOk = true
    ∧ resolve Hc KHc 10 stPr "did:tdw:s1:example.com" [e1x] none =
        .error .CannotDeactivatePreRotation
    ∧ versionNumOf e1x.version_id = some 1
    ∧ ResolutionError.CannotDeactivatePreRotation ≠ .InvalidVersionNumber :=
  ⟨rfl, rfl, rfl, by decide⟩

/-- Claim C10 (counterexample): `did:tdw:abc123:example.com:x:9090` has two
colons in its host-and-port segment, yet `TdwDid::parse` rejects it with
`InvalidDIDFormat` (the second component `x` does not parse as a `u16`),
refuting the claim that every such identifier is accepted. -/
theorem c10_multi_colon_cex :
    (hostPortSegment "did:tdw:abc123:example.com:x:9090").count ':' = 2
    ∧ TdwDid.parse "did:tdw:abc123:example.com:x:9090" =
        .error .InvalidDIDFormat :=
  ⟨by decide, rfl⟩

/-! ## Pipeline lemmas -/

theorem update_parameters_ok {st : ResolverState} {p : DIDParameters}
    {st' : ResolverState} (h : update_parameters st p = .ok st') :
    st' = apply_parameters st p := by
  unfold update_parameters at h
  split at h
  · exact absurd h (by simp)
  · split at h
    · exact absurd h (by simp)
    · injection h with h1
      exact h1.symm

theorem update_parameters_cv {st : ResolverState} {p : DIDParameters}
    {st' : ResolverState} (h : update_parameters st p = .ok st') :
    st'.current_version = st.current_version ∧
      st'.processed_documents = st.processed_documents := by
  rw [update_parameters_ok h]
  exact ⟨rfl, rfl⟩

theorem update_parameters_scid_rule {st : ResolverState} {p : DIDParameters}
    {st' : ResolverState} (h : update_parameters st p = .ok st') :
    st'.active_parameters.scid =
      match p.scid with
      | some sc => some sc
      | none => st.active_parameters.scid := by
  rw [update_parameters_ok h]
  rfl

theorem verify_version_sequence_ok_iff (st : ResolverState) (e : DIDLogEntry) :
    verify_version_sequence st e = .ok () ↔
      versionNumOf e.version_id = some (st.current_version + 1) := by
  unfold verify_version_sequence versionNumOf
  cases hs : splitChar '-' e.version_id.data with
  | nil => simp
  | cons a t =>
    cases t with
    | nil => simp
    | cons b t2 =>
      cases t2 with
      | nil =>
        cases hp : parseU64 a with
        | none => simp [hp]
        | some n =>
          by_cases hn : n = st.current_version + 1
          · subst hn; simp [hp]
          · simp [hp, hn, Ne.symm hn]
      | cons c2 t3 => simp

theorem verify_version_sequence_err_none {st : ResolverState} {e : DIDLogEntry}
    (h : versionNumOf e.version_id = none) :
    verify_version_sequence st e = .error .InvalidVersionId := by
  unfold verify_version_sequence
  unfold versionNumOf at h
  cases hs : splitChar '-' e.version_id.data with
  | nil => simp
  | cons a t =>
    rw [hs] at h
    cases t with
    | nil => simp
    | cons b t2 =>
      cases t2 with
      | nil => simp only at h; simp [h]
      | cons c2 t3 => simp

theorem verify_version_sequence_err_num {st : ResolverState} {e : DIDLogEntry}
    {n : Nat} (h : versionNumOf e.version_id = some n)
    (hne : n ≠ st.current_version + 1) :
    verify_version_sequence st e = .error .InvalidVersionNumber := by
  unfold verify_version_sequence
  unfold versionNumOf at h
  cases hs : splitChar '-' e.version_id.data with
  | nil => rw [hs] at h; exact absurd h (by simp)
  | cons a t =>
    rw [hs] at h
    cases t with
    | nil => exact absurd h (by simp)
    | cons b t2 =>
      cases t2 with
      | nil => simp only at h; simp [h, hne]
      | cons c2 t3 => exact absurd h (by simp)

theorem process_log_entry_ok {H : HashInput → String} {KH : String → String}
    {now : Int} {st : ResolverState} {e : DIDLogEntry} {st' : ResolverState}
    (h : process_log_entry H KH now st e = .ok st') :
    ∃ st1, update_parameters st e.parameters = .ok st1 ∧
      verify_version_sequence st1 e = .ok () ∧
      genesis_scid_check H st1 e = .ok () ∧
      st' = { st1 with
              processed_documents :=
                st1.processed_documents ++
                  [(e.version_id, e.version_time, e.state)],
              current_version := st1.current_version + 1 } := by
  unfold process_log_entry at h
  split at h
  · simp at h
  · rename_i st1 hu
    split at h
    · simp at h
    · rename_i u hv
      cases u
      split at h
      · simp at h
      · rename_i u hh
        cases u
        split at h
        · simp at h
        · rename_i u ht
          cases u
          split at h
          · simp at h
          · rename_i u hg
            cases u
            split at h
            · simp at h
            · rename_i u hr
              cases u
              split at h
              · simp at h
              · rename_i u hq
                cases u
                injection h with h1
                exact ⟨st1, hu, hv, hg, h1.symm⟩

theorem process_log_entry_cv {H : HashInput → String} {KH : String → String}
    {now : Int} {st : ResolverState} {e : DIDLogEntry} {st' : ResolverState}
    (h : process_log_entry H KH now st e = .ok st') :
    st'.current_version = st.current_version + 1 ∧
      versionNumOf e.version_id = some (st.current_version + 1) := by
  obtain ⟨st1, hu, hv, _, hst⟩ := process_log_entry_ok h
  have hcv := (update_parameters_cv hu).1
  have h1 : st'.current_version = st1.current_version + 1 := by rw [hst]
  refine ⟨by rw [h1, hcv], ?_⟩
  have hn := (verify_version_sequence_ok_iff st1 e).mp hv
  rwa [hcv] at hn

theorem process_log_entry_err_vseq {H : HashInput → String} {KH : String → String}
    {now : Int} {st : ResolverState} {e : DIDLogEntry} {st1 : ResolverState}
    {er : ResolutionError}
    (hu : update_parameters st e.parameters = .ok st1)
    (hv : verify_version_sequence st1 e = .error er) :
    process_log_entry H KH now st e = .error er := by
  unfold process_log_entry
  simp only [hu, hv]

theorem processLog_cons_err {H : HashInput → String} {KH : String → String}
    {now : Int} {st : ResolverState} {e : DIDLogEntry}
    {rest : List DIDLogEntry} {er : ResolutionError}
    (h : process_log_entry H KH now st e = .error er) :
    processLog H KH now st (e :: rest) = .error er := by
  unfold processLog
  simp only [h]

theorem processLog_cons_ok {H : HashInput → String} {KH : String → String}
    {now : Int} {st : ResolverState} {e : DIDLogEntry}
    {rest : List DIDLogEntry} {stF : ResolverState}
    (h : processLog H KH now st (e :: rest) = .ok stF) :
    ∃ st', process_log_entry H KH now st e = .ok st' ∧
      processLog H KH now st' rest = .ok stF := by
  unfold processLog at h
  split at h
  · simp at h
  · rename_i st1 hp
    exact ⟨st1, hp, h⟩

theorem processLog_cv_nth {H : HashInput → String} {KH : String → String}
    {now : Int} :
    ∀ (es : List DIDLogEntry) (st stF : ResolverState),
      processLog H KH now st es = .ok stF →
      stF.current_version = st.current_version + es.length ∧
      ∀ k (hk : k < es.length),
        versionNumOf (es.get ⟨k, hk⟩).version_id =
          some (st.current_version + k + 1) := by
  intro es
  induction es with
  | nil =>
    intro st stF h
    unfold processLog at h
    injection h with h1
    subst h1
    exact ⟨by simp, fun k hk => absurd hk (by simp)⟩
  | cons e rest ih =>
    intro st stF h
    obtain ⟨st', hp, hrest⟩ := processLog_cons_ok h
    obtain ⟨hcv', hnum⟩ := process_log_entry_cv hp
    obtain ⟨hcvF, hnth⟩ := ih st' stF hrest
    refine ⟨?_, ?_⟩
    · rw [hcvF, hcv']
      simp
      omega
    · intro k hk
      cases k with
      | zero => simpa using hnum
      | succ k' =>
        have hk' : k' < rest.length := by simpa using hk
        have hthis := hnth k' hk'
        rw [hcv'] at hthis
        have harith : st.current_version + 1 + k' + 1 =
            st.current_version + (k' + 1) + 1 := by omega
        rw [harith] at hthis
        simpa using hthis

theorem resolve_ok_processLog {H : HashInput → String} {KH : String → String}
    {now : Int} {st : ResolverState} {did : String} {log : List DIDLogEntry}
    {opts : Option ResolutionOptions} {stF : ResolverState} {doc : DIDDocument}
    (h : resolve H KH now st did log opts = .ok (stF, doc)) :
    processLog H KH now st log = .ok stF := by
  unfold resolve at h
  split at h
  · simp at h
  · rename_i d hp
    split at h
    · simp at h
    · rename_i st1 hl
      split at h
      · simp at h
      · rename_i doc1 hs
        injection h with h1
        injection h1 with ha hb
        rw [ha] at hl
        exact hl

/-- The resolver state after processing the genesis log `[e1]` from a fresh
resolver: one processed document, version counter 1, active parameters as
declared by `e1`. -/
def stE1 : ResolverState :=
  { active_parameters := baseParams,
    processed_documents := [("1-h1", 1, doc1)],
    current_version := 1,
    pre_rotation_active := false,
    next_key_hashes := [] }

example : processLog Hc KHc 10 initState [e1] = .ok stE1 := rfl
example : resolve Hc KHc 10 initState "did:tdw:s1:example.com" [e1] none =
    .ok (stE1, doc1) := rfl

/-- Claim C5: for the `k`-th entry of a log processed by a fresh resolver
(1-indexed), the integer prefix of its `versionId` must equal `k`: in every
accepted run the prefix of entry `k` is exactly `k`; a `versionId` that does
not split into exactly two `'-'`-separated parts or whose prefix does not
parse as a `u64` makes `verify_version_sequence` (and hence the resolve)
fail with `InvalidVersionId`; a parsed prefix different from the reducer
counter plus one fails with `InvalidVersionNumber`; and any such
version-sequence error aborts the resolve with that error once the entry's
parameters have been reduced. -/
theorem c5_version_sequence :
    (∀ (H : HashInput → String) (KH : String → String) (now : Int)
        (entries : List DIDLogEntry) (stF : ResolverState),
        processLog H KH now initState entries = .ok stF →
        ∀ k (hk : k < entries.length),
          versionNumOf (entries.get ⟨k, hk⟩).version_id = some (k + 1))
    ∧ (∀ (st : ResolverState) (e : DIDLogEntry),
        versionNumOf e.version_id = none →
        verify_version_sequence st e = .error .InvalidVersionId)
    ∧ (∀ (st : ResolverState) (e : DIDLogEntry) (n : Nat),
        versionNumOf e.version_id = some n →
        n ≠ st.current_version + 1 →
        verify_version_sequence st e = .error .InvalidVersionNumber)
    ∧ (∀ (H : HashInput → String) (KH : String → String) (now : Int)
        (st : ResolverState) (e : DIDLogEntry) (rest : List DIDLogEntry)
        (st1 : ResolverState) (er : ResolutionError),
        update_parameters st e.parameters = .ok st1 →
        verify_version_sequence st1 e = .error er →
        processLog H KH now st (e :: rest) = .error er) := by
  refine ⟨?_, ?_, ?_, ?_⟩
  · intro H KH now entries stF h k hk
    have hn := (processLog_cv_nth entries initState stF h).2 k hk
    rw [show initState.current_version = 0 from rfl] at hn
    simpa using hn
  · intro st e h
    exact verify_version_sequence_err_none h
  · intro st e n h hne
    exact verify_version_sequence_err_num h hne
  · intro H KH now st e rest st1 er hu hv
    exact processLog_cons_err (process_log_entry_err_vseq hu hv)

/-- Witness for C5 at concrete inputs: the accepted one-entry log `[e1]`
has prefix 1 at position 1, and an entry with prefix 2 fed to a fresh
resolver fails with `InvalidVersionNumber`. -/
theorem c5_version_sequence_wit :
    versionNumOf (([e1].get ⟨0, Nat.zero_lt_one⟩).version_id) = some 1
    ∧ verify_version_sequence initState e2chain = .error .InvalidVersionNumber :=
  ⟨c5_version_sequence.1 Hc KHc 10 [e1] stE1 rfl 0 Nat.zero_lt_one,
   c5_version_sequence.2.2.1 initState e2chain 2 rfl (by decide)⟩

theorem verify_scid_ok {H : HashInput → String} {sc : String}
    {e : DIDLogEntry} (h : verify_scid H sc e = .ok ()) :
    sc = generate_scid H e := by
  unfold verify_scid at h
  by_cases hq : sc = generate_scid H e
  · exact hq
  · rw [if_pos hq] at h
    exact absurd h (by simp)

theorem genesis_scid_check_ok {H : HashInput → String} {st : ResolverState}
    {e : DIDLogEntry} (hcv : st.current_version = 0)
    (h : genesis_scid_check H st e = .ok ()) :
    ∃ sc, st.active_parameters.scid = some sc ∧ sc = generate_scid H e := by
  unfold genesis_scid_check at h
  split at h
  · split at h
    · simp at h
    · rename_i sc hsc
      exact ⟨sc, hsc, verify_scid_ok h⟩
  · rename_i hne
    exact absurd hcv hne

/-- Claim C2 (amended): at the genesis entry the resolver compares the
recomputed SCID only against the active parameters' scid — which, starting
from a fresh resolver, is exactly the scid declared by the genesis entry's
parameters — and accepts only on equality (`InvalidSCID` otherwise).  The
scid component of the parsed identifier is never consulted. -/
theorem c2_genesis_scid_matches_parameters :
    (∀ (H : HashInput → String) (KH : String → String) (now : Int)
        (e : DIDLogEntry) (rest : List DIDLogEntry) (stF : ResolverState),
        processLog H KH now initState (e :: rest) = .ok stF →
        ∃ sc, e.parameters.scid = some sc ∧ generate_scid H e = sc)
    ∧ (∀ (H : HashInput → String) (sc : String) (e : DIDLogEntry),
        sc ≠ generate_scid H e → verify_scid H sc e = .error .InvalidSCID) := by
  constructor
  · intro H KH now e rest stF h
    obtain ⟨st', hp, _⟩ := processLog_cons_ok h
    obtain ⟨st1, hu, _hv, hg, _⟩ := process_log_entry_ok hp
    have hcv0 : st1.current_version = 0 := (update_parameters_cv hu).1.trans rfl
    obtain ⟨sc, hsc, hgen⟩ := genesis_scid_check_ok hcv0 hg
    refine ⟨sc, ?_, hgen.symm⟩
    have hscid := update_parameters_scid_rule hu
    rw [hsc] at hscid
    cases hps : e.parameters.scid with
    | none =>
      rw [hps] at hscid
      simp [initState] at hscid
    | some s =>
      rw [hps] at hscid
      simp at hscid
      rw [hscid]
  · intro H sc e hne
    unfold verify_scid
    rw [if_pos hne]

/-- Witness for C2 (amended) at concrete inputs: the accepted genesis log
`[e1]` declares scid `s1`, which equals the recomputed SCID, and a wrong
scid is rejected with `InvalidSCID`. -/
theorem c2_genesis_scid_matches_parameters_wit :
    (∃ sc, e1.parameters.scid = some sc ∧ generate_scid Hc e1 = sc)
    ∧ verify_scid Hc "bogus" e1 = .error .InvalidSCID :=
  ⟨c2_genesis_scid_matches_parameters.1 Hc KHc 10 e1 [] stE1 rfl,
   c2_genesis_scid_matches_parameters.2 Hc "bogus" e1 (by decide)⟩

/-- Claim C4 (amended): the reducer never raises `InvalidSCID`; a declared
scid — equal to the established one or not — silently replaces the active
scid, so after processing, the active scid is the last declared scid, not
necessarily the genesis scid. -/
theorem c4_scid_replacement_rule :
    (∀ (st : ResolverState) (p : DIDParameters),
        update_parameters st p ≠ .error .InvalidSCID)
    ∧ (∀ (st : ResolverState) (p : DIDParameters) (st' : ResolverState),
        update_parameters st p = .ok st' →
        st'.active_parameters.scid =
          match p.scid with
          | some sc => some sc
          | none => st.active_parameters.scid) := by
  constructor
  · intro st p h
    unfold update_parameters at h
    split at h
    · simp at h
    · split at h
      · simp at h
      · simp at h
  · intro st p st' h
    exact update_parameters_scid_rule h

/-- Witness for C4 (amended) at concrete inputs: reducing `e2scid`'s
parameters over the post-genesis state replaces the active scid `s1` by
`s2` without error. -/
theorem c4_scid_replacement_rule_wit :
    update_parameters stE1 e2scid.parameters ≠ .error .InvalidSCID
    ∧ (apply_parameters stE1 e2scid.parameters).active_parameters.scid =
        some "s2" :=
  ⟨c4_scid_replacement_rule.1 stE1 e2scid.parameters,
   c4_scid_replacement_rule.2 stE1 e2scid.parameters
     (apply_parameters stE1 e2scid.parameters) rfl⟩

/-- Claim C9 (amended): `Resolver::resolve` never resets the accumulated
state; after a successful resolve of a non-empty log the version counter
stays at the log's length, so a second resolve on the same instance whose
first entry carries version prefix 1 fails with `InvalidVersionNumber` —
provided that entry's parameters pass the reducer (a parameter error such
as `CannotDeactivatePreRotation` would otherwise surface first). -/
theorem c9_second_resolve_invalid_version_number :
    ∀ (H : HashInput → String) (KH : String → String) (now : Int)
      (did : String) (log : List DIDLogEntry) (stF : ResolverState)
      (doc : DIDDocument),
      resolve H KH now initState did log none = .ok (stF, doc) →
      log ≠ [] →
      ∀ (H2 : HashInput → String) (KH2 : String → String) (now2 : Int)
        (did2 : String) (e : DIDLogEntry) (rest : List DIDLogEntry)
        (opts2 : Option ResolutionOptions) (st1 : ResolverState),
        update_parameters stF e.parameters = .ok st1 →
        versionNumOf e.version_id = some 1 →
        (TdwDid.parse did2).isOk = true →
        resolve H2 KH2 now2 stF did2 (e :: rest) opts2 =
          .error .InvalidVersionNumber := by
  intro H KH now did log stF doc hres hne H2 KH2 now2 did2 e rest opts2 st1
    hu hnum hparse
  have hpl := resolve_ok_processLog hres
  have hcvF := (processLog_cv_nth log initState stF hpl).1
  have hlen : 0 < log.length := List.length_pos.mpr hne
  have hcv1 : st1.current_version = stF.current_version :=
    (update_parameters_cv hu).1
  have hv : verify_version_sequence st1 e = .error .InvalidVersionNumber := by
    refine verify_version_sequence_err_num hnum ?_
    rw [hcv1, hcvF]
    simp only [initState]
    omega
  have herr : processLog H2 KH2 now2 stF (e :: rest) =
      .error .InvalidVersionNumber :=
    processLog_cons_err (process_log_entry_err_vseq hu hv)
  unfold resolve
  cases hp2 : TdwDid.parse did2 with
  | error er => rw [hp2] at hparse; simp [Except.isOk, Except.toBool] at hparse
  | ok d => simp only [herr]

/-- Witness for C9 (amended) at concrete inputs: after resolving `[e1]`
the state is `stE1`; feeding the same genesis log again fails with
`InvalidVersionNumber`. -/
theorem c9_second_resolve_invalid_version_number_wit :
    resolve Hc KHc 10 stE1 "did:tdw:s1:example.com" [e1] none =
      .error .InvalidVersionNumber :=
  c9_second_resolve_invalid_version_number Hc KHc 10 "did:tdw:s1:example.com"
    [e1] stE1 doc1 rfl (by simp) Hc KHc 10 "did:tdw:s1:example.com" e1 []
    none (apply_parameters stE1 e1.parameters) rfl rfl rfl

/-! ## Selection-by-time lemmas -/

theorem find_rev_max (t : Int) :
    ∀ (docs : List (String × Int × DIDDocument)),
      List.Pairwise (fun a b => a.2.1 < b.2.1) docs →
      ∀ x ∈ docs, x.2.1 ≤ t →
      (∀ y ∈ docs, y.2.1 ≤ t → y.2.1 ≤ x.2.1) →
      docs.reverse.find? (fun z => decide (z.2.1 ≤ t)) = some x := by
  intro docs
  induction docs using List.reverseRecOn with
  | nil =>
    intro _ x hx
    exact absurd hx (by simp)
  | append_singleton l a ih =>
    intro hsorted x hx hxt hmax
    rw [List.reverse_append, List.reverse_singleton, List.singleton_append]
    obtain ⟨hpl, _, hcross⟩ := List.pairwise_append.mp hsorted
    by_cases hat : a.2.1 ≤ t
    · have hxa : x = a := by
        rcases List.mem_append.mp hx with hxl | hxa
        · have hal : a.2.1 ≤ x.2.1 := hmax a (by simp) hat
          have hlt : x.2.1 < a.2.1 := hcross x hxl a (by simp)
          omega
        · simpa using hxa
      subst hxa
      rw [List.find?_cons_of_pos _ (by simpa using hat)]
    · have hxl : x ∈ l := by
        rcases List.mem_append.mp hx with hxl | hxa
        · exact hxl
        · have hx' : x = a := by simpa using hxa
          subst hx'
          exact absurd hxt hat
      rw [List.find?_cons_of_neg _ (by simpa using hat)]
      exact ih hpl x hxl hxt
        (fun y hy hyt => hmax y (List.mem_append_left _ hy) hyt)

/-- Claim C7: on a processed history with strictly increasing
`versionTime`s, `get_document_by_time` returns the document of the latest
processed entry whose stored `versionTime` is `≤ t`, and fails with
`VersionNotFound` when no entry's `versionTime` is `≤ t`. -/
theorem c7_select_by_time :
    ∀ (docs : List (String × Int × DIDDocument)) (t : Int),
      List.Pairwise (fun a b => a.2.1 < b.2.1) docs →
      ((∀ x ∈ docs, t < x.2.1) →
        get_document_by_time docs t = .error .VersionNotFound)
      ∧ (∀ x ∈ docs, x.2.1 ≤ t →
          (∀ y ∈ docs, y.2.1 ≤ t → y.2.1 ≤ x.2.1) →
          get_document_by_time docs t = .ok x.2.2) := by
  intro docs t hsorted
  constructor
  · intro hall
    unfold get_document_by_time
    have hnone : docs.reverse.find? (fun z => decide (z.2.1 ≤ t)) = none := by
      rw [List.find?_eq_none]
      intro x hx
      rw [List.mem_reverse] at hx
      simpa using hall x hx
    rw [hnone]
  · intro x hx hxt hmax
    unfold get_document_by_time
    rw [find_rev_max t docs hsorted x hx hxt hmax]

/-- The three-version processed history of spec §8 Scenario F
(`t1 = 1 < t2 = 3 < t3 = 5`). -/
def hist3 : List (String × Int × DIDDocument) :=
  [("1-h1", 1, doc1), ("2-h2", 3, doc2), ("3-h3", 5, doc3)]

/-- Witness for C7 at concrete inputs: at `t = 4` the second document is
returned; at `t = 0` the selection fails with `VersionNotFound`. -/
theorem c7_select_by_time_wit :
    get_document_by_time hist3 4 = .ok doc2
    ∧ get_document_by_time hist3 0 = .error .VersionNotFound := by
  have hsorted : List.Pairwise (fun a b => a.2.1 < b.2.1) hist3 := by
    simp [hist3, List.pairwise_cons]
  constructor
  · refine (c7_select_by_time hist3 4 hsorted).2 ("2-h2", (3 : Int), doc2)
      (List.mem_cons_of_mem _ (List.mem_cons_self _ _)) (by decide) ?_
    intro y hy hyt
    simp [hist3] at hy
    rcases hy with rfl | rfl | rfl <;> simp_all
  · refine (c7_select_by_time hist3 0 hsorted).1 ?_
    intro x hx
    simp [hist3] at hx
    rcases hx with rfl | rfl | rfl <;> decide

theorem mem_joinSep {c x : Char} :
    ∀ {L : List (List Char)}, x ∈ joinSep c L → x = c ∨ ∃ a ∈ L, x ∈ a := by
  intro L
  induction L with
  | nil =>
    intro h
    simp [joinSep] at h
  | cons a L ih =>
    cases L with
    | nil =>
      intro h
      simp only [joinSep] at h
      exact Or.inr ⟨a, by simp, h⟩
    | cons b t =>
      intro h
      simp only [joinSep] at h
      rcases List.mem_append.mp h with h1 | h2
      · exact Or.inr ⟨a, by simp, h1⟩
      · rcases List.mem_cons.mp h2 with h3 | h4
        · exact Or.inl h3
        · rcases ih h4 with h5 | ⟨a', ha', hx⟩
          · exact Or.inl h5
          · exact Or.inr ⟨a', List.mem_cons_of_mem a ha', hx⟩

/-- Claim C10 (amended): an identifier whose host segment consists of three
or more colon-separated components (two or more colons) is *not* rejected
outright: `TdwDid::parse` succeeds — taking the first component as the
host, the second as the port, and silently discarding the rest — exactly
when the second component parses as a `u16`; otherwise it fails with
`InvalidDIDFormat`. -/
theorem c10_multi_colon_parse :
    ∀ (scid c0 c1 : String) (cs : List String) (s : String),
      s.data = joinSep ':' ("did".data :: "tdw".data :: scid.data ::
        c0.data :: c1.data :: cs.map String.data) →
      cs ≠ [] →
      ':' ∉ scid.data → '/' ∉ scid.data →
      ':' ∉ c0.data → '/' ∉ c0.data →
      ':' ∉ c1.data → '/' ∉ c1.data →
      (∀ c ∈ cs, ':' ∉ c.data ∧ '/' ∉ c.data) →
      2 ≤ (hostPortSegment s).count ':'
      ∧ (∀ n, parseU16 c1.data = some n →
          TdwDid.parse s = .ok ⟨scid, c0, some n, none⟩)
      ∧ (parseU16 c1.data = none →
          TdwDid.parse s = .error .InvalidDIDFormat) := by
  intro scid c0 c1 cs s hs hcs hsc _hss hc0 hc0s hc1 hc1s hrest
  have hnc : ∀ a ∈ ("did".data :: "tdw".data :: scid.data :: c0.data ::
      c1.data :: cs.map String.data), ':' ∉ a := by
    intro a ha
    simp only [List.mem_cons] at ha
    rcases ha with rfl | rfl | rfl | rfl | rfl | hm
    · decide
    · decide
    · exact hsc
    · exact hc0
    · exact hc1
    · obtain ⟨cstr, hcstr, rfl⟩ := List.mem_map.mp hm
      exact (hrest cstr hcstr).1
  have hncR : ∀ a ∈ (c0.data :: c1.data :: cs.map String.data), ':' ∉ a := by
    intro a ha
    exact hnc a (List.mem_cons_of_mem _ (List.mem_cons_of_mem _
      (List.mem_cons_of_mem _ ha)))
  have hsplit : splitChar ':' s.data = "did".data :: "tdw".data ::
      scid.data :: c0.data :: c1.data :: cs.map String.data := by
    rw [hs]
    exact splitChar_joinSep ':' _ hnc (by simp)
  have hslashR : '/' ∉ joinSep ':' (c0.data :: c1.data :: cs.map String.data) := by
    intro hmem
    rcases mem_joinSep hmem with heq | ⟨a, ha, hx⟩
    · exact absurd heq (by decide)
    · simp only [List.mem_cons] at ha
      rcases ha with rfl | rfl | hm
      · exact hc0s hx
      · exact hc1s hx
      · obtain ⟨cstr, hcstr, rfl⟩ := List.mem_map.mp hm
        exact (hrest cstr hcstr).2 hx
  have hbreak : breakOn '/' (joinSep ':' (c0.data :: c1.data :: cs.map String.data)) =
      (joinSep ':' (c0.data :: c1.data :: cs.map String.data), none) :=
    breakOn_of_not_mem hslashR
  have hcolon : ':' ∈ joinSep ':' (c0.data :: c1.data :: cs.map String.data) :=
    List.mem_append_right _ (List.mem_cons_self _ _)
  have hsplitR : splitChar ':' (joinSep ':' (c0.data :: c1.data :: cs.map String.data)) =
      c0.data :: c1.data :: cs.map String.data :=
    splitChar_joinSep ':' _ hncR (by simp)
  refine ⟨?_, ?_, ?_⟩
  · unfold hostPortSegment
    simp only [hsplit, hbreak]
    obtain ⟨m, ms, rfl⟩ : ∃ m ms, cs = m :: ms := by
      cases cs with
      | nil => exact absurd rfl hcs
      | cons m ms => exact ⟨m, ms, rfl⟩
    show 2 ≤ (c0.data ++ ':' :: (c1.data ++ ':' ::
      joinSep ':' (m.data :: ms.map String.data))).count ':'
    simp [List.count_append, List.count_cons]
    omega
  · intro n hn
    unfold TdwDid.parse
    simp only [hsplit]
    rw [if_pos ⟨trivial, trivial⟩]
    simp only [hbreak]
    rw [if_pos hcolon]
    simp only [hsplitR, hn]
    rfl
  · intro hn
    unfold TdwDid.parse
    simp only [hsplit]
    rw [if_pos ⟨trivial, trivial⟩]
    simp only [hbreak]
    rw [if_pos hcolon]
    simp only [hsplitR, hn]

/-- Witness for C10 (amended) at concrete inputs: the example identifier
with two colons in the host segment parses, with host `example.com`,
port `8080`, and `9090` discarded. -/
theorem c10_multi_colon_parse_wit :
    TdwDid.parse "did:tdw:abc123:example.com:8080:9090" =
      .ok ⟨"abc123", "example.com", some 8080, none⟩
    ∧ 2 ≤ (hostPortSegment "did:tdw:abc123:example.com:8080:9090").count ':' := by
  have h := c10_multi_colon_parse "abc123" "example.com" "8080" ["9090"]
    "did:tdw:abc123:example.com:8080:9090" rfl (by simp) (by decide) (by decide)
    (by decide) (by decide) (by decide) (by decide) (by decide)
  exact ⟨h.2.1 8080 rfl, h.1⟩

/-! ## Round-trip lemmas for the identifier parser -/

theorem parse_ok_elim {s : String} {d : TdwDid}
    (h : TdwDid.parse s = .ok d) :
    ∃ p2 r0 rrest,
      splitChar ':' s.data = "did".data :: "tdw".data :: p2 :: r0 :: rrest ∧
      ((':' ∉ (breakOn '/' (joinSep ':' (r0 :: rrest))).1 ∧
         d = ⟨⟨p2⟩, ⟨(breakOn '/' (joinSep ':' (r0 :: rrest))).1⟩, none,
              ((breakOn '/' (joinSep ':' (r0 :: rrest))).2).map (⟨·⟩)⟩)
       ∨ (∃ d0 d1 t port,
            ':' ∈ (breakOn '/' (joinSep ':' (r0 :: rrest))).1 ∧
            splitChar ':' (breakOn '/' (joinSep ':' (r0 :: rrest))).1 =
              d0 :: d1 :: t ∧
            parseU16 d1 = some port ∧
            d = ⟨⟨p2⟩, ⟨d0⟩, some port,
                 ((breakOn '/' (joinSep ':' (r0 :: rrest))).2).map (⟨·⟩)⟩)) := by
  unfold TdwDid.parse at h
  split at h
  · rename_i p0 p1 p2 r0 rrest hsq
    split at h
    · rename_i hcond
      obtain ⟨hc1, hc2⟩ := hcond
      subst hc1
      subst hc2
      split at h
      · rename_i hmem
        split at h
        · rename_i d0 d1 t hsp
          split at h
          · rename_i port hport
            injection h with h1
            exact ⟨p2, r0, rrest, hsq,
              Or.inr ⟨d0, d1, t, port, hmem, hsp, hport, h1.symm⟩⟩
          · simp at h
        · simp at h
      · rename_i hnmem
        injection h with h1
        exact ⟨p2, r0, rrest, hsq, Or.inl ⟨hnmem, h1.symm⟩⟩
    · simp at h
  · simp at h

/-- The round-trip side condition forced by the counterexample: among the
inputs accepted by `TdwDid::parse`, those whose host-and-port segment has
at most one colon, and whose port text (when present) is the canonical
decimal rendering of its value, are re-serialized verbatim. -/
def RoundTripSafe (s : String) : Prop :=
  match splitChar ':' s.data with
  | _p0 :: _p1 :: _p2 :: r0 :: rrest =>
    match splitChar ':' (breakOn '/' (joinSep ':' (r0 :: rrest))).1 with
    | [_d] => True
    | [_d, pstr] =>
      match parseU16 pstr with
      | some n => pstr = (Nat.repr n).data
      | none => True
    | _ => False
  | _ => True

theorem to_string_data (d : TdwDid) :
    d.to_string.data =
      "did:tdw:".data ++ d.scid.data ++ ':' :: d.domain.data ++
        (match d.port with
         | some p => ':' :: (Nat.repr p).data
         | none => []) ++
        (match d.path with
         | some q => '/' :: q.data
         | none => []) := by
  obtain ⟨scid, domain, port, path⟩ := d
  cases port with
  | none =>
    cases path with
    | none => simp [TdwDid.to_string, String.data_append]
    | some q => simp [TdwDid.to_string, String.data_append]
  | some p =>
    cases path with
    | none => simp [TdwDid.to_string, String.data_append]
    | some q => simp [TdwDid.to_string, String.data_append]

/-- Claim C8 (amended): serializing a parsed identifier reproduces the
input byte-for-byte for every accepted input whose host-and-port segment
splits into at most two colon-separated components and whose port text,
when present, is the canonical decimal rendering of the parsed port
(inputs with extra components, or with `'+'`-prefixed or zero-padded
ports, re-serialize differently, as the counterexample shows). -/
theorem c8_round_trip_conditional :
    ∀ (s : String) (d : TdwDid),
      TdwDid.parse s = .ok d → RoundTripSafe s → d.to_string = s := by
  intro s d h hsafe
  obtain ⟨p2, r0, rrest, hsq, hcase⟩ := parse_ok_elim h
  have hjoin : joinSep ':' ("did".data :: "tdw".data :: p2 :: r0 :: rrest) =
      s.data := by
    rw [← hsq]
    exact joinSep_splitChar ':' s.data
  have hjoin2 : s.data = "did".data ++ ':' ::
      ("tdw".data ++ ':' :: (p2 ++ ':' :: joinSep ':' (r0 :: rrest))) := by
    rw [← hjoin]
    simp [joinSep]
  have hpre : ("did:tdw:".data : List Char) =
      "did".data ++ ':' :: "tdw".data ++ [':'] := by decide
  have hbreak := (breakOn_eq '/' (joinSep ':' (r0 :: rrest))).2
  unfold RoundTripSafe at hsafe
  simp only [hsq] at hsafe
  rcases hcase with ⟨hnmem, rfl⟩ | ⟨d0, d1, t, port, hmem, hsp, hport, rfl⟩
  · apply String.ext
    rw [to_string_data]
    obtain ⟨dpa, hdpa⟩ :
        ∃ x, (breakOn '/' (joinSep ':' (r0 :: rrest))).1 = x := ⟨_, rfl⟩
    cases hdp : (breakOn '/' (joinSep ':' (r0 :: rrest))).2 with
    | none =>
      rw [hdp] at hbreak
      rw [hdpa] at hbreak ⊢
      simp at hbreak
      rw [hjoin2, hbreak, hpre]
      simp [List.append_assoc]
    | some q =>
      rw [hdp] at hbreak
      rw [hdpa] at hbreak ⊢
      simp at hbreak
      rw [hjoin2, hbreak, hpre]
      simp [List.append_assoc]
  · cases t with
    | cons x xs =>
      simp only [hsp] at hsafe
    | nil =>
      simp only [hsp, hport] at hsafe
      have hflat : joinSep ':'
          (splitChar ':' ((breakOn '/' (joinSep ':' (r0 :: rrest))).1)) =
          (breakOn '/' (joinSep ':' (r0 :: rrest))).1 := joinSep_splitChar ':' _
      rw [hsp] at hflat
      simp only [joinSep] at hflat
      apply String.ext
      rw [to_string_data]
      cases hdp : (breakOn '/' (joinSep ':' (r0 :: rrest))).2 with
      | none =>
        rw [hdp] at hbreak
        simp at hbreak
        rw [hjoin2, hbreak, ← hflat, hpre]
        simp [List.append_assoc, hsafe]
      | some q =>
        rw [hdp] at hbreak
        simp at hbreak
        rw [hjoin2, hbreak, ← hflat, hpre]
        simp [List.append_assoc, hsafe]

/-- Witness for C8 (amended) at a concrete input: the spec's Scenario B
identifier round-trips exactly. -/
theorem c8_round_trip_conditional_wit :
    TdwDid.to_string ⟨"abc123", "example.com", some 8080, some "path/to/resource"⟩ =
      "did:tdw:abc123:example.com:8080/path/to/resource" :=
  c8_round_trip_conditional "did:tdw:abc123:example.com:8080/path/to/resource"
    ⟨"abc123", "example.com", some 8080, some "path/to/resource"⟩ rfl rfl
